import Mathlib

/-!
Verification of the mbt-cli repository (a Modbus/TCP command-line shell).

The development shallowly embeds the pure computational core of
`src/mbt_cli/main.py`: the byte-swap helper, the hexadecimal-literal
preprocessor, the per-argument integer validator, the register
decoder/formatter (`_dump_bool_results`, `_dump_word_results`,
`_dump_results`) and the command handlers for the Modbus read/write
operations.  Python strings are modelled as `List Char`, Python ints as
`Int` (or `Nat` where the source guarantees non-negativity), fallible
paths as `Except`/`Option`.  Functions of the wrapped pyModbusTCP library
that the repository calls (`get_2comp`, `decode_ieee`, the client's
last-error state) are modelled from their library definitions, as noted
on each one.
-/

namespace MbtCli

/-! ### Decimal and hexadecimal digit helpers

These model Python's `str(int)` / `format(n, 'x')` rendering and the
decimal part of `int(str)` parsing, used by `replace_hex`, `valid_int`
and the formatter. -/

/-- Character for a decimal digit `d < 10` (codepoint `48 + d`). -/
def decChar (d : Nat) : Char := Char.ofNat (48 + d)

/-- Character for a hexadecimal digit `d < 16`, lowercase as Python's
`'x'` format spec produces. -/
def hexChar (d : Nat) : Char := Char.ofNat (if d < 10 then 48 + d else 87 + d)

/-- Decimal digit test, `'0' ≤ c ≤ '9'`. -/
def isDecDigit (c : Char) : Bool := 48 ≤ c.toNat && c.toNat ≤ 57

/-- Little-endian base-`b` digits of `n`, with explicit fuel so that the
definition is structurally recursive (any `fuel ≥ n` is enough). -/
def toDigitsLE (b : Nat) : Nat → Nat → List Nat
  | 0, _ => []
  | fuel + 1, n => if n = 0 then [] else n % b :: toDigitsLE b fuel (n / b)

/-- Decimal rendering of a natural number, as Python's `str`. -/
def renderNat (n : Nat) : List Char :=
  if n = 0 then ['0'] else ((toDigitsLE 10 n n).map decChar).reverse

/-- Decimal rendering of an integer, as Python's `str`: a leading `-`
for negative values, no sign otherwise. -/
def renderInt (i : Int) : List Char :=
  if i < 0 then '-' :: renderNat i.natAbs else renderNat i.toNat

/-- Lowercase hexadecimal rendering of a natural number (no prefix). -/
def hexStr (n : Nat) : List Char :=
  if n = 0 then ['0'] else ((toDigitsLE 16 n n).map hexChar).reverse

/-- Zero-padded lowercase hexadecimal, as Python's `'04x'`-style format
spec with minimum width `w`. -/
def hexPad (w n : Nat) : List Char :=
  List.replicate (w - (hexStr n).length) '0' ++ hexStr n

/-- Zero-padded decimal, as Python's `'04'`-style format spec. -/
def zeroPadDec (w n : Nat) : List Char :=
  List.replicate (w - (renderNat n).length) '0' ++ renderNat n

/-- Right alignment in width `w`, as Python's `'>5'` format spec. -/
def alignR (w : Nat) (s : List Char) : List Char :=
  List.replicate (w - s.length) ' ' ++ s

/-- Left alignment (right padding) in width `w`, as Python's `'<8'`
format spec. -/
def padR (w : Nat) (s : List Char) : List Char :=
  s ++ List.replicate (w - s.length) ' '

/-- Parse a non-empty all-decimal-digit string to a natural number. -/
def parseDecDigits (cs : List Char) : Option Nat :=
  if cs = [] then none
  else if cs.all isDecDigit then
    some (cs.foldl (fun a c => 10 * a + (c.toNat - 48)) 0)
  else none

/-- Modelled from the Python builtin `int(x)` restricted to the decimal
grammar relevant here: an optional leading sign followed by one or more
decimal digits; anything else raises `ValueError`, modelled as `none`. -/
def pyInt (cs : List Char) : Option Int :=
  match cs with
  | [] => none
  | c :: rest =>
    if c = '-' then (parseDecDigits rest).map fun n => -(n : Int)
    else if c = '+' then (parseDecDigits rest).map fun n => (n : Int)
    else (parseDecDigits (c :: rest)).map fun n => (n : Int)

/-! ### The repository's pure helper functions (`main.py`) -/

/-- Embeds `swap_bytes` of `main.py`:
`int.from_bytes(x.to_bytes(2, byteorder='little'), byteorder='big')`,
i.e. low byte becomes high byte and vice versa.  `x.to_bytes(2, ...)`
requires `0 ≤ x < 2 ^ 16` (outside that range Python raises
`OverflowError`, which no call site of the program can trigger: the
function is only applied to transport-supplied registers and to values
already validated into `[0, 0xffff]`), so theorems about this function
carry that domain hypothesis. -/
def swap_bytes (x : Nat) : Nat := x % 256 * 256 + x / 256

/-- Hexadecimal digit test of the character class `[0-9a-fA-F]`. -/
def isHexDigitCh (c : Char) : Bool :=
  (48 ≤ c.toNat && c.toNat ≤ 57) || (97 ≤ c.toNat && c.toNat ≤ 102) ||
    (65 ≤ c.toNat && c.toNat ≤ 70)

/-- Matcher for the unsigned part `0[xX][0-9a-fA-F]+` of the regular
expression of `replace_hex`. -/
def matchHexCore : List Char → Bool
  | '0' :: x :: rest => (x = 'x' || x = 'X') && !rest.isEmpty && rest.all isHexDigitCh
  | _ => false

/-- Full matcher for the anchored regular expression
`^\-?0[xX][0-9a-fA-F]+$` of `replace_hex` on a single token. -/
def matchHexTok (cs : List Char) : Bool :=
  match cs with
  | '-' :: rest => matchHexCore rest
  | _ => matchHexCore cs

/-- Value of a big-endian hexadecimal digit string. -/
def hexDigitsVal (cs : List Char) : Nat :=
  cs.foldl (fun a c =>
    16 * a + (if c.toNat ≤ 57 then c.toNat - 48
              else if c.toNat ≤ 70 then c.toNat - 55 else c.toNat - 87)) 0

/-- Value of a token matching the hex pattern, as Python's
`int(tok, 16)`: optional sign, then the value of the digits after the
two prefix characters `0x`/`0X`. -/
def hexTokVal (cs : List Char) : Int :=
  match cs with
  | '-' :: rest => -(hexDigitsVal (rest.drop 2) : Int)
  | _ => (hexDigitsVal (cs.drop 2) : Int)

/-- Embeds `replace_hex` of `main.py`: `re.sub` with a fully anchored
pattern on one token replaces the whole token with the decimal string of
its value when it matches, and leaves it unchanged otherwise. -/
def replace_hex (tok : List Char) : List Char :=
  if matchHexTok tok then renderInt (hexTokVal tok) else tok

/-- Message of the `ArgumentTypeError` raised by `valid_int` when the
value is outside `[min, max]` (the f-string
`not in valid range [{min}-{max}]`). -/
def rangeMsg (mn mx : Int) : List Char :=
  "not in valid range [".data ++ renderInt mn ++ "-".data ++ renderInt mx ++ "]".data

/-- Message of the `ArgumentTypeError` raised by `valid_int` when `int`
conversion fails. -/
def notAnIntMsg : List Char := "not an int".data

/-- Embeds `valid_int(min, max)` of `main.py`: convert with `int(x)`
(raising `not an int` on `ValueError`), then require
`min <= x <= max` (raising the range message otherwise).  The raised
`ArgumentTypeError` carries only a message, modelled as the `error`
branch. -/
def valid_int (mn mx : Int) (x : List Char) : Except (List Char) Int :=
  match pyInt x with
  | none => .error notAnIntMsg
  | some v => if mn ≤ v ∧ v ≤ mx then .ok v else .error (rangeMsg mn mx)

/-! ### Models of the pyModbusTCP library functions used by the formatter -/

/-- Modelled from the library: `pyModbusTCP.utils.get_2comp(val_int,
val_size)` maps an unsigned value with its most significant bit set to
the corresponding negative two's-complement value (`val_int & (1 <<
(val_size - 1))` test, then `val_int -= 1 << val_size`). -/
def get_2comp (val_int : Nat) (val_size : Nat) : Int :=
  if val_int.testBit (val_size - 1) then (val_int : Int) - 2 ^ val_size
  else (val_int : Int)

/-- Result of reinterpreting 32 bits as an IEEE-754 single-precision
float: not-a-number, a signed infinity, or an exact finite rational. -/
inductive Ieee32 where
  | nan : Ieee32
  | inf (neg : Bool) : Ieee32
  | finite (q : ℚ) : Ieee32
deriving DecidableEq, Repr

/-- Modelled from the library: `pyModbusTCP.utils.decode_ieee(val_int)`
is `struct.unpack("f", struct.pack("I", val_int))[0]`, i.e. the 32-bit
pattern reinterpreted under IEEE-754 binary32 (pack and unpack share the
native byte order, so the reinterpretation is byte-order independent).
The exact value is kept as a rational; Python returns it as a (lossless,
since binary32 ⊂ binary64) float. -/
def decode_ieee (v : Nat) : Ieee32 :=
  let s : Bool := v.testBit 31
  let e : Nat := v / 2 ^ 23 % 2 ^ 8
  let m : Nat := v % 2 ^ 23
  if e = 255 then (if m = 0 then .inf s else .nan)
  else
    let mag : ℚ := if e = 0 then (m : ℚ) / 2 ^ 149 else (2 ^ 23 + m : ℚ) * 2 ^ e / 2 ^ 150
    .finite (if s then -mag else mag)

/-- Modelled from the library: the `pyModbusTCP.constants.MB_EXCEPT_ERR`
error code (the client's `last_error` value after a Modbus exception
response).  Only its equality with `last_error` matters here. -/
def MB_EXCEPT_ERR : Nat := 4

/-- Rendering of a Python float by an f-string, as used for the `f32`
column.  Modelled: nan and the infinities print as Python renders them;
for finite values the claims under verification only ever distinguish
the text from `n/a`, so the exact rational is printed as
`numerator/denominator` instead of Python's shortest-roundtrip decimal
notation. -/
def floatStr : Ieee32 → List Char
  | .nan => "nan".data
  | .inf true => "-inf".data
  | .inf false => "inf".data
  | .finite q => renderInt q.num ++ "/".data ++ renderNat q.den

/-- Escape of one byte inside Python's `repr` of a `bytes` object. -/
def pyByteEscape (b : Nat) : List Char :=
  if b = 92 then "\\\\".data
  else if b = 39 then "\\".data ++ ['\'']
  else if b = 9 then "\\t".data
  else if b = 10 then "\\n".data
  else if b = 13 then "\\r".data
  else if 32 ≤ b ∧ b ≤ 126 then [Char.ofNat b]
  else "\\x".data ++ hexPad 2 b

/-- Python `repr` of the two-byte `bytes([byte_1, byte_2])` object, as
produced by the f-string `f'{u16_bytes}'` for the ascii column. -/
def pyBytesRepr2 (b1 b2 : Nat) : List Char :=
  'b' :: '\'' :: (pyByteEscape b1 ++ pyByteEscape b2 ++ ['\''])

/-- Python `str(bool).lower()` as used by the boolean formatter. -/
def pyBoolStrLower (b : Bool) : List Char :=
  if b then "true".data else "false".data

/-! ### The register decoder/formatter (`MbtCmd._dump_word_results`,
`MbtCmd._dump_bool_results`, `MbtCmd._dump_results`) -/

/-- Display-mode flags of the `MbtCmd` session (class attributes
`dump_hex`, `swap_bytes`, `swap_words`, `dump_32b`). -/
structure DisplayCfg where
  dump_hex : Bool
  swap_bytes : Bool
  swap_words : Bool
  dump_32b : Bool
deriving DecidableEq, Repr

/-- The 16-bit values computed per row by `_dump_word_results` (the
first `try` block); `none` models the `except IndexError` branch when
the transport returned fewer elements than requested. -/
structure Cells16 where
  raw_register : Option Nat
  u16 : Option Nat
  i16 : Option Int
  u16_bytes : Option (Nat × Nat)
deriving DecidableEq, Repr

/-- Embeds the 16-bit block of `_dump_word_results`: fetch the raw
register, byte-swap it when the flag is set, then derive the signed
value and the two bytes. -/
def cells16 (swB : Bool) (ret_list : List Nat) (reg_idx : Nat) : Cells16 :=
  match ret_list[reg_idx]? with
  | some raw_register =>
    let u16 := if swB then swap_bytes raw_register else raw_register
    let i16 := get_2comp u16 16
    let byte_1 := u16 / 256 % 256
    let byte_2 := u16 % 256
    ⟨some raw_register, some u16, some i16, some (byte_1, byte_2)⟩
  | none => ⟨none, none, none, none⟩

/-- The 32-bit values computed per row by `_dump_word_results` (the
second `try` block); `none` models the `except IndexError` branch when
the current or the following register is absent. -/
structure Cells32 where
  u32 : Option Nat
  i32 : Option Int
  f32 : Option Ieee32
deriving DecidableEq, Repr

/-- Embeds the 32-bit block of `_dump_word_results`: fetch the current
and next registers (either miss aborts the block), byte-swap each when
the flag is set, combine them in the order selected by the word-swap
flag, then derive the signed value and the float reinterpretation. -/
def cells32 (swB swW : Bool) (ret_list : List Nat) (reg_idx : Nat) : Cells32 :=
  match ret_list[reg_idx]?, ret_list[reg_idx + 1]? with
  | some r0, some r1 =>
    let word_0 := if swB then swap_bytes r0 else r0
    let word_1 := if swB then swap_bytes r1 else r1
    let u32 := if swW then word_1 * 2 ^ 16 + word_0 else word_0 * 2 ^ 16 + word_1
    ⟨some u32, some (get_2comp u32 32), some (decode_ieee u32)⟩
  | _, _ => ⟨none, none, none⟩

/-- The `0x` prefix variable `pfix` of `_dump_word_results`. -/
def pfixOf (dcfg : DisplayCfg) : List Char :=
  if dcfg.dump_hex then "0x".data else []

/-- A 16-bit magnitude under the format spec variable `fmt16` (`'04x'`
in hex mode, plain `str` otherwise). -/
def fmt16mag (dcfg : DisplayCfg) (n : Nat) : List Char :=
  if dcfg.dump_hex then hexPad 4 n else renderNat n

/-- A 32-bit magnitude under the format spec variable `fmt32` (`'08x'`
in hex mode, plain `str` otherwise). -/
def fmt32mag (dcfg : DisplayCfg) (n : Nat) : List Char :=
  if dcfg.dump_hex then hexPad 8 n else renderNat n

/-- The string `n/a` printed for values lost to a short response. -/
def naStr : List Char := "n/a".data

/-- One row of `_dump_word_results` as structured column strings plus
the assembled output line.  `colA`/`colB`/`colC` are `u32`/`i32`/`f32`
in 32-bit mode and `u16`/`i16`/`ascii` in 16-bit mode. -/
structure WordRow where
  reg_idx : Nat
  reg_addr : Nat
  raw_as_str : List Char
  colA : List Char
  colB : List Char
  colC : List Char
  line : List Char
deriving DecidableEq, Repr

/-- Embeds one iteration of the row loop of `_dump_word_results`:
compute the 16-bit and 32-bit cells, format each column (with `n/a` for
the cells lost to an `IndexError`, except the ascii column whose
f-string formats a missing value as `None`), and assemble the padded
output line. -/
def word_row (dcfg : DisplayCfg) (ret_list : List Nat) (address reg_idx : Nat) :
    WordRow :=
  let reg_addr := address + reg_idx
  let c16 := cells16 dcfg.swap_bytes ret_list reg_idx
  let c32 := cells32 dcfg.swap_bytes dcfg.swap_words ret_list reg_idx
  let raw_as_str := match c16.raw_register with
    | some r => "0x".data ++ hexPad 4 r
    | none => naStr
  let colA := if dcfg.dump_32b then
      match c32.u32 with
      | some u => pfixOf dcfg ++ fmt32mag dcfg u
      | none => naStr
    else
      match c16.u16 with
      | some u => pfixOf dcfg ++ fmt16mag dcfg u
      | none => naStr
  let colB := if dcfg.dump_32b then
      match c32.i32 with
      | some i =>
        (if i < 0 then ['-'] else []) ++ pfixOf dcfg ++ fmt32mag dcfg i.natAbs
      | none => naStr
    else
      match c16.i16 with
      | some i =>
        (if i < 0 then ['-'] else []) ++ pfixOf dcfg ++ fmt16mag dcfg i.natAbs
      | none => naStr
  let colC := if dcfg.dump_32b then
      match c32.f32 with
      | some f => floatStr f
      | none => naStr
    else
      match c16.u16_bytes with
      | some (b1, b2) => pyBytesRepr2 b1 b2
      | none => "None".data
  let line :=
    zeroPadDec 4 reg_idx ++ " @".data ++ alignR 5 (renderNat reg_addr) ++
      " [0x".data ++ hexPad 4 reg_addr ++ "] = ".data ++ padR 8 raw_as_str ++ " ".data ++
      (if dcfg.dump_32b then
        padR 11 colA ++ " ".data ++ padR 11 colB ++ " ".data ++ padR 11 colC
      else
        padR 8 colA ++ " ".data ++ padR 8 colB ++ " ".data ++ padR 12 colC)
  ⟨reg_idx, reg_addr, raw_as_str, colA, colB, colC, line⟩

/-- The header line of `_dump_word_results`. -/
def word_head (dcfg : DisplayCfg) : List Char :=
  padR 4 "#".data ++ " ".data ++ padR 17 "address".data ++ " ".data ++ padR 8 "raw".data ++
    " ".data ++
    (if dcfg.dump_32b then
      padR 11 "u32".data ++ " ".data ++ padR 11 "i32".data ++ " ".data ++ padR 11 "f32".data
    else
      padR 8 "u16".data ++ " ".data ++ padR 8 "i16".data ++ " ".data ++ padR 12 "ascii".data)

/-- Embeds the row loop of `_dump_word_results`: one row per index in
`range(0, cmd_args.number)`. -/
def dump_word_rows (dcfg : DisplayCfg) (ret_list : List Nat) (address number : Nat) :
    List WordRow :=
  (List.range number).map (word_row dcfg ret_list address)

/-- One row of `_dump_bool_results`: `str(ret_list[reg_idx]).lower()`,
or `n/a` past the end of the returned list. -/
structure BoolRow where
  reg_idx : Nat
  reg_addr : Nat
  bool_as_str : List Char
  line : List Char
deriving DecidableEq, Repr

/-- Embeds one iteration of the row loop of `_dump_bool_results`. -/
def bool_row (ret_list : List Bool) (address reg_idx : Nat) : BoolRow :=
  let reg_addr := address + reg_idx
  let bool_as_str := match ret_list[reg_idx]? with
    | some b => pyBoolStrLower b
    | none => naStr
  let line :=
    zeroPadDec 4 reg_idx ++ " @".data ++ alignR 5 (renderNat reg_addr) ++
      " [0x".data ++ hexPad 4 reg_addr ++ "] = ".data ++ bool_as_str
  ⟨reg_idx, reg_addr, bool_as_str, line⟩

/-- Embeds the row loop of `_dump_bool_results`. -/
def dump_bool_rows (ret_list : List Bool) (address number : Nat) : List BoolRow :=
  (List.range number).map (bool_row ret_list address)

/-- The header line of `_dump_bool_results`. -/
def bool_head : List Char :=
  padR 4 "#".data ++ " ".data ++ padR 17 "address".data ++ " ".data ++ "bool".data

/-! ### The transport error branch (`MbtCmd._dump_results`) -/

/-- The slice of the `ModbusClient` state read by `_dump_results`:
`debug`, and the `last_error` / `last_error_as_txt` /
`last_except_as_txt` error state maintained by the library. -/
structure MbState where
  debug : Bool
  last_error : Nat
  last_error_as_txt : List Char
  last_except_as_txt : List Char
deriving DecidableEq, Repr

/-- The single diagnostic line of `_dump_results`: the last-error text,
with the protocol exception text parenthesised and appended exactly when
`last_error == MB_EXCEPT_ERR`. -/
def errLine (st : MbState) : List Char :=
  st.last_error_as_txt ++
    (if st.last_error = MB_EXCEPT_ERR then
      " (".data ++ st.last_except_as_txt ++ ")".data
    else [])

/-- Python truthiness of a read result: the read methods return a list
on success and `None` on failure; `None` and the empty list are falsy. -/
def isTruthy {α : Type} (ret : Option (List α)) : Bool :=
  match ret with
  | none => false
  | some l => !l.isEmpty

/-- Embeds `_dump_results` on the word path (`as_bool=False`): a truthy
result prints the table (header plus the row lines); otherwise, only
when debug mode is off, exactly the one diagnostic line is printed. -/
def dump_results_words (st : MbState) (dcfg : DisplayCfg) (ret : Option (List Nat))
    (address number : Nat) : List (List Char) :=
  if isTruthy ret then
    word_head dcfg :: (dump_word_rows dcfg (ret.getD []) address number).map WordRow.line
  else if !st.debug then [errLine st]
  else []

/-- Embeds `_dump_results` on the boolean path (`as_bool=True`). -/
def dump_results_bool (st : MbState) (ret : Option (List Bool))
    (address number : Nat) : List (List Char) :=
  if isTruthy ret then
    bool_head :: (dump_bool_rows (ret.getD []) address number).map BoolRow.line
  else if !st.debug then [errLine st]
  else []

/-! ### Argument parsing (`CmdArgParser` + argparse behaviour)

`CmdArgParser.parse_cmd_args` splits the line on whitespace, rewrites
each token through `replace_hex`, and hands the tokens to argparse.  The
overridden `error` method raises `ArgumentError(None, message)`, whose
string is just the message, so every parse failure surfaces as one
message string, modelled as the `error` branch of `Except`.  The
argparse behaviour for the purely positional grammars used here is
modelled from the library: convert each consumed token with its `type`
callable (an `ArgumentTypeError` becomes the message
`argument <dest>: <msg>`), report `unrecognized arguments: ...` for
leftover tokens and `the following arguments are required: ...` for
missing required ones. -/

/-- Python `str.split()` with no separator: split on whitespace runs,
discarding empty pieces. -/
def pySplitAux (cur : List Char) : List Char → List (List Char)
  | [] => if cur.isEmpty then [] else [cur.reverse]
  | c :: rest =>
    if c = ' ' ∨ c = '\t' ∨ c = '\n' ∨ c = '\r' then
      if cur.isEmpty then pySplitAux [] rest else cur.reverse :: pySplitAux [] rest
    else pySplitAux (c :: cur) rest

/-- Python `str.split()` on a whole line. -/
def pySplit (s : List Char) : List (List Char) := pySplitAux [] s

/-- Embeds `CmdArgParser._preprocess_args`: split the line and apply
`replace_hex` to every token. -/
def preprocess_args (line : List Char) : List (List Char) :=
  (pySplit line).map replace_hex

/-- Space-joined token list, as argparse's `' '.join(argv)`. -/
def joinSp : List (List Char) → List Char
  | [] => []
  | [t] => t
  | t :: ts => t ++ ' ' :: joinSp ts

/-- Wraps a `type`-callable failure into argparse's
`argument <dest>: <message>` error string. -/
def wrapArgErr (nm : List Char) : Except (List Char) Int → Except (List Char) Int
  | .ok v => .ok v
  | .error m => .error ("argument ".data ++ nm ++ ": ".data ++ m)

/-- The `unrecognized arguments: ...` parse error. -/
def unrecognizedMsg (extras : List (List Char)) : List Char :=
  "unrecognized arguments: ".data ++ joinSp extras

/-- The `the following arguments are required: ...` parse error. -/
def requiredMsg (names : List (List Char)) : List Char :=
  "the following arguments are required: ".data ++ joinSp names

/-- Argparse on two optional positionals (`nargs='?'` with defaults), as
declared by the four read commands. -/
def parseTwoOpt (n1 n2 : List Char) (v1 v2 : List Char → Except (List Char) Int)
    (d1 d2 : Int) (toks : List (List Char)) : Except (List Char) (Int × Int) :=
  match toks with
  | [] => .ok (d1, d2)
  | [a] => do
    let x ← wrapArgErr n1 (v1 a)
    .ok (x, d2)
  | [a, b] => do
    let x ← wrapArgErr n1 (v1 a)
    let y ← wrapArgErr n2 (v2 b)
    .ok (x, y)
  | a :: b :: c :: rest => do
    let _ ← wrapArgErr n1 (v1 a)
    let _ ← wrapArgErr n2 (v2 b)
    .error (unrecognizedMsg (c :: rest))

/-- Argparse on two required positionals, as declared by the two write
commands. -/
def parseTwoReq (n1 n2 : List Char) (v1 v2 : List Char → Except (List Char) Int)
    (toks : List (List Char)) : Except (List Char) (Int × Int) :=
  match toks with
  | [] => .error (requiredMsg [n1, n2])
  | [a] => do
    let _ ← wrapArgErr n1 (v1 a)
    .error (requiredMsg [n2])
  | [a, b] => do
    let x ← wrapArgErr n1 (v1 a)
    let y ← wrapArgErr n2 (v2 b)
    .ok (x, y)
  | a :: b :: c :: rest => do
    let _ ← wrapArgErr n1 (v1 a)
    let _ ← wrapArgErr n2 (v2 b)
    .error (unrecognizedMsg (c :: rest))

/-- Argparse on one optional positional, as declared by the setting
commands such as `port`. -/
def parseOneOpt (nm : List Char) (v : List Char → Except (List Char) Int)
    (dflt : Int) (toks : List (List Char)) : Except (List Char) Int :=
  match toks with
  | [] => .ok dflt
  | [a] => wrapArgErr nm (v a)
  | a :: b :: rest => do
    let _ ← wrapArgErr nm (v a)
    .error (unrecognizedMsg (b :: rest))

/-- The argument grammar shared by the four read commands:
`address` in `[0, 0xffff]` defaulting to 0 and `number` in
`[1, maxNumber]` defaulting to 1, after hex preprocessing. -/
def parseReadArgs (maxNumber : Int) (arg : List Char) :
    Except (List Char) (Int × Int) :=
  parseTwoOpt "address".data "number".data
    (valid_int 0 0xffff) (valid_int 1 maxNumber) 0 1 (preprocess_args arg)

/-- The argument grammar of the write commands: required `address` in
`[0, 0xffff]` and required `value` in `[0, maxValue]`. -/
def parseWriteArgs (maxValue : Int) (arg : List Char) :
    Except (List Char) (Int × Int) :=
  parseTwoReq "address".data "value".data
    (valid_int 0 0xffff) (valid_int 0 maxValue) (preprocess_args arg)

/-! ### Command handlers (`MbtCmd.do_*`)

Each handler wraps its body in `try ... except (ArgumentError,
ValueError) as e: print(e)`, so a parse or value failure is printed as
one line and the handler returns `None` (falsy), which keeps the `cmd`
loop running: only `do_exit` returns `True`.  The transport's reply is
passed in as a parameter (`ret` for reads, `write_ok` for writes), since
the network side lives in the external library. -/

/-- Printed lines and loop-stop flag returned by one handler call. -/
structure HandlerOut where
  lines : List (List Char)
  stop : Bool
deriving DecidableEq, Repr

/-- Embeds `do_read_coils`: parse `address`/`number` (count range
`[1, 2000]`), then dump the transport result on the boolean path. -/
def do_read_coils (st : MbState) (ret : Option (List Bool)) (arg : List Char) :
    HandlerOut :=
  match parseReadArgs 2000 arg with
  | .error e => ⟨[e], false⟩
  | .ok (ad, num) => ⟨dump_results_bool st ret ad.toNat num.toNat, false⟩

/-- Embeds `do_read_discrete_inputs` (same grammar and dump path as
`do_read_coils`). -/
def do_read_discrete_inputs (st : MbState) (ret : Option (List Bool))
    (arg : List Char) : HandlerOut :=
  match parseReadArgs 2000 arg with
  | .error e => ⟨[e], false⟩
  | .ok (ad, num) => ⟨dump_results_bool st ret ad.toNat num.toNat, false⟩

/-- Embeds `do_read_holding_registers`: count range `[1, 125]`, word
dump path. -/
def do_read_holding_registers (st : MbState) (dcfg : DisplayCfg)
    (ret : Option (List Nat)) (arg : List Char) : HandlerOut :=
  match parseReadArgs 125 arg with
  | .error e => ⟨[e], false⟩
  | .ok (ad, num) => ⟨dump_results_words st dcfg ret ad.toNat num.toNat, false⟩

/-- Embeds `do_read_input_registers` (same grammar and dump path as
`do_read_holding_registers`). -/
def do_read_input_registers (st : MbState) (dcfg : DisplayCfg)
    (ret : Option (List Nat)) (arg : List Char) : HandlerOut :=
  match parseReadArgs 125 arg with
  | .error e => ⟨[e], false⟩
  | .ok (ad, num) => ⟨dump_results_words st dcfg ret ad.toNat num.toNat, false⟩

/-- Handler output of a write command, with the `(address, value)` pair
passed to the transport call (`none` when no call was made because
parsing failed). -/
structure WriteOut where
  lines : List (List Char)
  stop : Bool
  sent : Option (Int × Int)
deriving DecidableEq, Repr

/-- Embeds `do_write_single_coil`: parse required `address` and `value`
(range `[0, 1]`) and pass them to `mb_client.write_single_coil`
unmodified — the handler reads none of the display flags, in particular
not the byte-swap flag (the `dcfg` parameter mirrors the method's access
to `self` and is unused).  Prints the ok/failure status line. -/
def do_write_single_coil (_dcfg : DisplayCfg) (write_ok : Bool) (arg : List Char) :
    WriteOut :=
  match parseWriteArgs 1 arg with
  | .error e => ⟨[e], false, none⟩
  | .ok (ad, v) =>
    ⟨[if write_ok then "coil write ok".data else "unable to set coil".data],
      false, some (ad, v)⟩

/-- Embeds `do_write_single_register`: parse required `address` and
`value` (range `[0, 0xffff]`), byte-swap the value when the flag is set,
and pass the result to `mb_client.write_single_register`.  The validated
value lies in `[0, 0xffff]`, so the `Int → Nat` cast into `swap_bytes`
is exact. -/
def do_write_single_register (dcfg : DisplayCfg) (write_ok : Bool)
    (arg : List Char) : WriteOut :=
  match parseWriteArgs 0xffff arg with
  | .error e => ⟨[e], false, none⟩
  | .ok (ad, v) =>
    let raw_value : Int := if dcfg.swap_bytes then (swap_bytes v.toNat : Nat) else v
    ⟨[if write_ok then "register write ok".data else "unable to set register".data],
      false, some (ad, raw_value)⟩

/-- Handler output of a setting command such as `port`: printed lines,
stop flag, and the new value of the setting. -/
structure SetOut where
  lines : List (List Char)
  stop : Bool
  value : Int
deriving DecidableEq, Repr

/-- Embeds `do_port`: one optional `value` in `[1, 0xffff]` defaulting
to the current port; on success the port is set and echoed, on a parse
failure the message is printed and the port is unchanged. -/
def do_port (cur_port : Int) (arg : List Char) : SetOut :=
  match parseOneOpt "value".data (valid_int 1 0xffff) cur_port (preprocess_args arg) with
  | .error e => ⟨[e], false, cur_port⟩
  | .ok v => ⟨["port set to ".data ++ renderInt v], false, v⟩

/-- Value of a little-endian base-`b` digit list (specification helper
for the digit lemmas). -/
def valLE (b : Nat) : List Nat → Nat
  | [] => 0
  | d :: L => d + b * valLE b L

/-! ### Lemmas: decimal rendering round-trips through parsing -/

lemma toDigitsLE_valLE (b : Nat) (hb : 2 ≤ b) :
    ∀ fuel n, n ≤ fuel → valLE b (toDigitsLE b fuel n) = n := by
  intro fuel
  induction fuel with
  | zero =>
    intro n h
    interval_cases n
    simp [toDigitsLE, valLE]
  | succ fuel ih =>
    intro n h
    by_cases hn : n = 0
    · simp [toDigitsLE, hn, valLE]
    · have hlt : n / b < n := Nat.div_lt_self (by omega) (by omega)
      have hrec := ih (n / b) (by omega)
      simp only [toDigitsLE, hn, if_false, valLE, hrec]
      exact Nat.mod_add_div n b

lemma toDigitsLE_lt (b : Nat) (hb : 0 < b) :
    ∀ fuel n d, d ∈ toDigitsLE b fuel n → d < b := by
  intro fuel
  induction fuel with
  | zero => intro n d h; simp [toDigitsLE] at h
  | succ fuel ih =>
    intro n d h
    by_cases hn : n = 0
    · simp [toDigitsLE, hn] at h
    · simp only [toDigitsLE, hn, if_false, List.mem_cons] at h
      rcases h with h | h
      · subst h; exact Nat.mod_lt _ hb
      · exact ih _ _ h

lemma toDigitsLE_ne_nil (b fuel n : Nat) (hn : n ≠ 0) (hf : n ≤ fuel) :
    toDigitsLE b fuel n ≠ [] := by
  cases fuel with
  | zero => omega
  | succ fuel => simp [toDigitsLE, hn]

lemma decChar_toNat (d : Nat) (h : d < 10) : (decChar d).toNat = 48 + d := by
  interval_cases d <;> decide

lemma isDecDigit_decChar (d : Nat) (h : d < 10) : isDecDigit (decChar d) = true := by
  simp only [isDecDigit, decChar_toNat d h, Bool.and_eq_true, decide_eq_true_eq]
  omega

lemma renderNat_all_digits (n : Nat) : ∀ c ∈ renderNat n, isDecDigit c = true := by
  intro c hc
  unfold renderNat at hc
  by_cases hn : n = 0
  · simp [hn] at hc
    subst hc
    decide
  · rw [if_neg hn] at hc
    rw [List.mem_reverse, List.mem_map] at hc
    obtain ⟨d, hd, rfl⟩ := hc
    exact isDecDigit_decChar d (toDigitsLE_lt 10 (by norm_num) n n d hd)

lemma renderNat_ne_nil (n : Nat) : renderNat n ≠ [] := by
  unfold renderNat
  by_cases hn : n = 0
  · simp [hn]
  · rw [if_neg hn]
    simp [toDigitsLE_ne_nil 10 n n hn le_rfl]

lemma foldl_dec_digits (L : List Nat) (hL : ∀ d ∈ L, d < 10) :
    ∀ a : Nat, ((L.map decChar).reverse).foldl (fun acc c => 10 * acc + (c.toNat - 48)) a
      = a * 10 ^ L.length + valLE 10 L := by
  induction L with
  | nil => intro a; simp [valLE]
  | cons d L ih =>
    intro a
    have hd : d < 10 := hL d (List.mem_cons_self d L)
    have hL' : ∀ x ∈ L, x < 10 := fun x hx => hL x (List.mem_cons_of_mem d hx)
    simp only [List.map_cons, List.reverse_cons, List.foldl_append, List.foldl_cons,
      List.foldl_nil, ih hL', decChar_toNat d hd, valLE, List.length_cons, pow_succ]
    have h48 : 48 + d - 48 = d := by omega
    rw [h48]
    ring

lemma parse_render_nat (n : Nat) : parseDecDigits (renderNat n) = some n := by
  by_cases hn : n = 0
  · subst hn; decide
  · unfold parseDecDigits
    rw [if_neg (renderNat_ne_nil n)]
    rw [if_pos (by rw [List.all_eq_true]; intro c hc; exact renderNat_all_digits n c hc)]
    unfold renderNat
    rw [if_neg hn]
    rw [foldl_dec_digits (toDigitsLE 10 n n) (toDigitsLE_lt 10 (by norm_num) n n)]
    rw [toDigitsLE_valLE 10 (by norm_num) n n le_rfl]
    simp

lemma renderNat_head_digit (n : Nat) (c : Char) (rest : List Char)
    (h : renderNat n = c :: rest) : c ≠ '-' ∧ c ≠ '+' := by
  have hc : isDecDigit c = true := renderNat_all_digits n c (by rw [h]; simp)
  constructor <;> rintro rfl <;> exact absurd hc (by decide)

lemma pyInt_render_int (i : Int) : pyInt (renderInt i) = some i := by
  unfold renderInt
  by_cases hi : i < 0
  · rw [if_pos hi]
    simp [pyInt, parse_render_nat, abs_of_neg hi]
  · rw [if_neg hi]
    rcases h : renderNat i.toNat with _ | ⟨c, rest⟩
    · exact absurd h (renderNat_ne_nil i.toNat)
    · obtain ⟨hm, hp⟩ := renderNat_head_digit i.toNat c rest h
      simp only [pyInt, if_neg hm, if_neg hp, ← h, parse_render_nat]
      simp
      omega

/-! ### Lemmas: rendered magnitudes contain no sign character -/

lemma renderNat_not_dash (n : Nat) : ∀ c ∈ renderNat n, c ≠ '-' := by
  intro c hc
  have hd := renderNat_all_digits n c hc
  rintro rfl
  exact absurd hd (by decide)

lemma hexChar_ne_dash (d : Nat) (h : d < 16) : hexChar d ≠ '-' := by
  interval_cases d <;> decide

lemma hexStr_not_dash (n : Nat) : ∀ c ∈ hexStr n, c ≠ '-' := by
  intro c hc
  unfold hexStr at hc
  by_cases hn : n = 0
  · simp [hn] at hc
    subst hc
    decide
  · rw [if_neg hn, List.mem_reverse, List.mem_map] at hc
    obtain ⟨d, hd, rfl⟩ := hc
    exact hexChar_ne_dash d (toDigitsLE_lt 16 (by norm_num) n n d hd)

lemma hexPad_not_dash (w n : Nat) : ∀ c ∈ hexPad w n, c ≠ '-' := by
  intro c hc
  unfold hexPad at hc
  rw [List.mem_append] at hc
  rcases hc with hc | hc
  · rw [List.eq_of_mem_replicate hc]
    decide
  · exact hexStr_not_dash n c hc

/-! ### Claim theorems -/

/-- C10: the byte-swap function is a self-inverse total function on
16-bit values: for every `x` with `0 ≤ x ≤ 0xffff`, `swap_bytes x` is
again in `[0, 0xffff]` and `swap_bytes (swap_bytes x) = x`. -/
theorem C10_swap_bytes_involutive (x : Nat) (h : x ≤ 0xffff) :
    swap_bytes x ≤ 0xffff ∧ swap_bytes (swap_bytes x) = x := by
  unfold swap_bytes
  omega

theorem C10_swap_bytes_involutive_witness :
    (0xaabb : Nat) ≤ 0xffff ∧
      (swap_bytes 0xaabb ≤ 0xffff ∧ swap_bytes (swap_bytes 0xaabb) = 0xaabb) :=
  ⟨by decide, C10_swap_bytes_involutive 0xaabb (by decide)⟩

/-- C4: every token fully matching the hex-literal pattern (optional
minus, `0x`/`0X`, one or more hex digits) is replaced by the decimal
string of its signed value, which parses back to the same integer;
every non-matching token is left unchanged. -/
theorem C4_replace_hex_roundtrip (tok : List Char) :
    (matchHexTok tok = true →
      replace_hex tok = renderInt (hexTokVal tok) ∧
        pyInt (replace_hex tok) = some (hexTokVal tok)) ∧
    (matchHexTok tok = false → replace_hex tok = tok) := by
  constructor
  · intro h
    unfold replace_hex
    rw [if_pos h]
    exact ⟨rfl, pyInt_render_int _⟩
  · intro h
    unfold replace_hex
    rw [h]
    simp

theorem C4_replace_hex_roundtrip_witness :
    matchHexTok "-0x10".data = true ∧
      (replace_hex "-0x10".data = renderInt (hexTokVal "-0x10".data) ∧
        pyInt (replace_hex "-0x10".data) = some (hexTokVal "-0x10".data)) ∧
      replace_hex "-0x10".data = "-16".data ∧ hexTokVal "-0x10".data = -16 ∧
      matchHexTok "12".data = false ∧ replace_hex "12".data = "12".data :=
  ⟨by decide, (C4_replace_hex_roundtrip "-0x10".data).1 (by decide), by decide, by decide,
    by decide, (C4_replace_hex_roundtrip "12".data).2 (by decide)⟩

/-- C5: for every inclusive range `[min, max]`, the validator accepts
the decimal strings of `min` and of `max`, rejects those of `min - 1`
and `max + 1` with the out-of-range error whose message includes the
valid range, and rejects any string that fails integer conversion with
the not-an-int error. -/
theorem C5_valid_int_bounds (mn mx : Int) (h : mn ≤ mx) :
    valid_int mn mx (renderInt mn) = .ok mn ∧
    valid_int mn mx (renderInt mx) = .ok mx ∧
    valid_int mn mx (renderInt (mn - 1)) = .error (rangeMsg mn mx) ∧
    valid_int mn mx (renderInt (mx + 1)) = .error (rangeMsg mn mx) ∧
    (renderInt mn ++ "-".data ++ renderInt mx) <:+: rangeMsg mn mx ∧
    (∀ s, pyInt s = none → valid_int mn mx s = .error notAnIntMsg) := by
  refine ⟨?_, ?_, ?_, ?_, ?_, ?_⟩
  · simp only [valid_int, pyInt_render_int]
    rw [if_pos ⟨le_rfl, h⟩]
  · simp only [valid_int, pyInt_render_int]
    rw [if_pos ⟨h, le_rfl⟩]
  · simp only [valid_int, pyInt_render_int]
    rw [if_neg (by omega)]
  · simp only [valid_int, pyInt_render_int]
    rw [if_neg (by omega)]
  · exact ⟨"not in valid range [".data, "]".data, by simp [rangeMsg, List.append_assoc]⟩
  · intro s hs
    unfold valid_int
    rw [hs]

theorem C5_valid_int_bounds_witness :
    (0 : Int) ≤ 65535 ∧
    valid_int 0 65535 (renderInt 0) = .ok 0 ∧
    valid_int 0 65535 (renderInt 65535) = .ok 65535 ∧
    valid_int 0 65535 (renderInt (0 - 1)) = .error (rangeMsg 0 65535) ∧
    valid_int 0 65535 (renderInt (65535 + 1)) = .error (rangeMsg 0 65535) ∧
    pyInt "zz".data = none ∧
    valid_int 0 65535 "zz".data = .error notAnIntMsg ∧
    rangeMsg 0 65535 = "not in valid range [0-65535]".data := by
  have hmain := C5_valid_int_bounds 0 65535 (by decide)
  exact ⟨by decide, hmain.1, hmain.2.1, hmain.2.2.1, hmain.2.2.2.1, by decide,
    hmain.2.2.2.2.2 "zz".data (by decide), by decide⟩

/-- C1 counterexample: with the byte-swap flag set, `write_single_coil
5 1` passes the value 1 to the transport unmodified, although
`swap_bytes 1 = 256`, so the swap is not applied on the coil-write
path as the claim states. -/
theorem C1_coil_write_not_swapped :
    (do_write_single_coil ⟨false, true, false, false⟩ true "5 1".data).sent =
      some (5, 1) ∧
    swap_bytes 1 = 256 ∧ (1 : Int) ≠ 256 := by
  decide

/-- C1 (amended): when the byte-swap flag is set, the two bytes of every
raw register on the read-rendering path are swapped before the unsigned,
signed and 32-bit-combination derivations (`0xaabb` becomes `0xbbaa`),
and `write_single_register` swaps the value before passing it to the
transport; `write_single_coil` passes its value to the transport
unswapped. -/
theorem C1_swap_before_derivations :
    (∀ (swB : Bool) (regs : List Nat) (idx raw : Nat),
      regs[idx]? = some raw →
        (cells16 swB regs idx).u16 = some (if swB then swap_bytes raw else raw) ∧
        (cells16 swB regs idx).i16 =
          some (get_2comp (if swB then swap_bytes raw else raw) 16)) ∧
    (∀ (swB swW : Bool) (regs : List Nat) (idx r0 r1 : Nat),
      regs[idx]? = some r0 → regs[idx + 1]? = some r1 →
        (cells32 swB swW regs idx).u32 =
          some (if swW then
              (if swB then swap_bytes r1 else r1) * 2 ^ 16 +
                (if swB then swap_bytes r0 else r0)
            else
              (if swB then swap_bytes r0 else r0) * 2 ^ 16 +
                (if swB then swap_bytes r1 else r1))) ∧
    swap_bytes 0xaabb = 0xbbaa ∧
    (∀ (dcfg : DisplayCfg) (wok : Bool) (arg : List Char) (ad v : Int),
      parseWriteArgs 0xffff arg = .ok (ad, v) → dcfg.swap_bytes = true →
        (do_write_single_register dcfg wok arg).sent =
          some (ad, ((swap_bytes v.toNat : Nat) : Int))) ∧
    (∀ (dcfg : DisplayCfg) (wok : Bool) (arg : List Char) (ad v : Int),
      parseWriteArgs 1 arg = .ok (ad, v) →
        (do_write_single_coil dcfg wok arg).sent = some (ad, v)) := by
  refine ⟨?_, ?_, by decide, ?_, ?_⟩
  · intro swB regs idx raw hraw
    simp [cells16, hraw]
  · intro swB swW regs idx r0 r1 h0 h1
    simp [cells32, h0, h1]
  · intro dcfg wok arg ad v hparse hsw
    simp [do_write_single_register, hparse, hsw]
  · intro dcfg wok arg ad v hparse
    simp [do_write_single_coil, hparse]

theorem C1_swap_before_derivations_witness :
    ([0xaabb, 0x1234] : List Nat)[0]? = some 0xaabb ∧
    (cells16 true [0xaabb, 0x1234] 0).u16 = some (swap_bytes 0xaabb) ∧
    (cells16 true [0xaabb, 0x1234] 0).u16 = some 0xbbaa ∧
    parseWriteArgs 0xffff "5 0xaabb".data = .ok (5, 0xaabb) ∧
    (do_write_single_register ⟨false, true, false, false⟩ true "5 0xaabb".data).sent =
      some (5, 0xbbaa) ∧
    parseWriteArgs 1 "5 1".data = .ok (5, 1) ∧
    (do_write_single_coil ⟨false, true, false, false⟩ true "5 1".data).sent =
      some (5, 1) := by
  have h := C1_swap_before_derivations
  have h16 := (h.1 true [0xaabb, 0x1234] 0 0xaabb (by decide)).1
  have hwr := h.2.2.2.1 ⟨false, true, false, false⟩ true "5 0xaabb".data 5 0xaabb
    (by rfl) (by decide)
  have hwc := h.2.2.2.2 ⟨false, true, false, false⟩ true "5 1".data 5 1 (by rfl)
  exact ⟨by decide, by simpa using h16, by simpa using h16, by rfl, by simpa using hwr,
    by rfl, hwc⟩

/-- C3: in 32-bit mode, adjacent registers `[A, B]` (each byte-swapped
first when that flag is set) combine to `(A<<16)+B` with word-swap off
and `(B<<16)+A` with word-swap on, and the signed 32-bit and IEEE-754
float cells are derived from that same 32-bit value. -/
theorem C3_u32_combination (swB swW : Bool) (regs : List Nat) (idx A B : Nat)
    (hA : regs[idx]? = some A) (hB : regs[idx + 1]? = some B) :
    ∃ u : Nat,
      (cells32 swB swW regs idx).u32 = some u ∧
      u = (if swW then
            (if swB then swap_bytes B else B) * 2 ^ 16 + (if swB then swap_bytes A else A)
          else
            (if swB then swap_bytes A else A) * 2 ^ 16 + (if swB then swap_bytes B else B)) ∧
      (cells32 swB swW regs idx).i32 = some (get_2comp u 32) ∧
      (cells32 swB swW regs idx).f32 = some (decode_ieee u) := by
  refine ⟨_, ?_, rfl, ?_, ?_⟩ <;> simp [cells32, hA, hB]

theorem C3_u32_combination_witness :
    (cells32 false false [0x1234, 0x5678] 0).u32 = some 0x12345678 ∧
    (cells32 false false [0x1234, 0x5678] 0).i32 = some (get_2comp 0x12345678 32) ∧
    (cells32 false false [0x1234, 0x5678] 0).f32 = some (decode_ieee 0x12345678) := by
  obtain ⟨u, hu, hval, hi, hf⟩ :=
    C3_u32_combination false false [0x1234, 0x5678] 0 0x1234 0x5678 (by decide) (by decide)
  have huval : u = 0x12345678 := by
    simp at hval
    omega
  subst huval
  exact ⟨hu, hi, hf⟩

/-- C7: in 32-bit word-rendering mode, a row whose following register
is absent renders `n/a` in all three 32-bit columns, while its own raw
16-bit value is still rendered as a hex literal. -/
theorem C7_last_row_32b (dcfg : DisplayCfg) (regs : List Nat) (address idx r : Nat)
    (h32 : dcfg.dump_32b = true) (hr : regs[idx]? = some r)
    (hnext : regs[idx + 1]? = none) :
    (word_row dcfg regs address idx).colA = naStr ∧
    (word_row dcfg regs address idx).colB = naStr ∧
    (word_row dcfg regs address idx).colC = naStr ∧
    (word_row dcfg regs address idx).raw_as_str = "0x".data ++ hexPad 4 r := by
  simp [word_row, cells16, cells32, hr, hnext, h32]

theorem C7_last_row_32b_witness :
    (word_row ⟨false, false, false, true⟩ [0xaabb] 0 0).colA = naStr ∧
    (word_row ⟨false, false, false, true⟩ [0xaabb] 0 0).colB = naStr ∧
    (word_row ⟨false, false, false, true⟩ [0xaabb] 0 0).colC = naStr ∧
    (word_row ⟨false, false, false, true⟩ [0xaabb] 0 0).raw_as_str =
      "0x".data ++ hexPad 4 0xaabb :=
  C7_last_row_32b ⟨false, false, false, true⟩ [0xaabb] 0 0 0xaabb rfl (by decide) (by decide)

/-- Helper: the `0x` prefix contains no minus sign. -/
lemma pfixOf_not_dash (dcfg : DisplayCfg) : ∀ c ∈ pfixOf dcfg, c ≠ '-' := by
  intro c hc
  unfold pfixOf at hc
  by_cases h : dcfg.dump_hex <;> simp [h] at hc
  rcases hc with rfl | rfl <;> decide

/-- Helper: a formatted 16-bit magnitude contains no minus sign. -/
lemma fmt16mag_not_dash (dcfg : DisplayCfg) (n : Nat) : ∀ c ∈ fmt16mag dcfg n, c ≠ '-' := by
  intro c hc
  unfold fmt16mag at hc
  by_cases h : dcfg.dump_hex
  · rw [if_pos h] at hc
    exact hexPad_not_dash 4 n c hc
  · rw [if_neg h] at hc
    exact renderNat_not_dash n c hc

/-- Helper: a formatted 32-bit magnitude contains no minus sign. -/
lemma fmt32mag_not_dash (dcfg : DisplayCfg) (n : Nat) : ∀ c ∈ fmt32mag dcfg n, c ≠ '-' := by
  intro c hc
  unfold fmt32mag at hc
  by_cases h : dcfg.dump_hex
  · rw [if_pos h] at hc
    exact hexPad_not_dash 8 n c hc
  · rw [if_neg h] at hc
    exact renderNat_not_dash n c hc

/-- C8: a signed column value (`i16` or `i32`, decimal or hex base) is
rendered as a leading `-` followed by the formatted magnitude exactly
when it is negative; zero and positive values carry no sign character,
and the magnitude part never contains one. -/
theorem C8_signed_sign_rendering (dcfg : DisplayCfg) (regs : List Nat)
    (address idx : Nat) :
    (∀ i : Int, dcfg.dump_32b = false →
      (cells16 dcfg.swap_bytes regs idx).i16 = some i →
        (word_row dcfg regs address idx).colB =
          (if i < 0 then ['-'] else []) ++ pfixOf dcfg ++ fmt16mag dcfg i.natAbs ∧
        ∀ c ∈ pfixOf dcfg ++ fmt16mag dcfg i.natAbs, c ≠ '-') ∧
    (∀ i : Int, dcfg.dump_32b = true →
      (cells32 dcfg.swap_bytes dcfg.swap_words regs idx).i32 = some i →
        (word_row dcfg regs address idx).colB =
          (if i < 0 then ['-'] else []) ++ pfixOf dcfg ++ fmt32mag dcfg i.natAbs ∧
        ∀ c ∈ pfixOf dcfg ++ fmt32mag dcfg i.natAbs, c ≠ '-') := by
  constructor
  · intro i h32 hi
    constructor
    · simp [word_row, h32, hi]
    · intro c hc
      rcases List.mem_append.mp hc with hc | hc
      · exact pfixOf_not_dash dcfg c hc
      · exact fmt16mag_not_dash dcfg i.natAbs c hc
  · intro i h32 hi
    constructor
    · simp [word_row, h32, hi]
    · intro c hc
      rcases List.mem_append.mp hc with hc | hc
      · exact pfixOf_not_dash dcfg c hc
      · exact fmt32mag_not_dash dcfg i.natAbs c hc

theorem C8_signed_sign_rendering_witness :
    (word_row ⟨false, false, false, false⟩ [0x8001] 0 0).colB =
      (if (-32767 : Int) < 0 then ['-'] else []) ++ pfixOf ⟨false, false, false, false⟩ ++
        fmt16mag ⟨false, false, false, false⟩ (Int.natAbs (-32767)) ∧
    (word_row ⟨false, false, false, false⟩ [0x8001] 0 0).colB = "-32767".data :=
  ⟨((C8_signed_sign_rendering ⟨false, false, false, false⟩ [0x8001] 0 0).1
      (-32767) rfl (by decide)).1,
    by decide⟩

/-- C2 counterexample: with default display flags (16-bit word mode), a
read of count 5 against a transport result of 3 registers renders a row
at index 3, but its ascii data column shows `None`, not `n/a`, so it is
not the case that every data column of a short-response row shows
`n/a`. -/
theorem C2_missing_row_ascii_is_None :
    ((dump_word_rows ⟨false, false, false, false⟩ [1, 2, 3] 0 5).map
        WordRow.colC)[3]? = some "None".data ∧
    "None".data ≠ naStr := by
  decide

/-- C2 (amended): for a read of count `n` over a transport result of
length `m < n`, the formatter renders exactly `n` rows; every row with
index `≥ m` shows `n/a` in the boolean column, in the raw column and in
the `u16`/`i16` (16-bit mode) or `u32`/`i32`/`f32` (32-bit mode)
columns, while the ascii column of such a row in 16-bit mode shows
`None` instead of `n/a`. -/
theorem C2_fixed_row_count (dcfg : DisplayCfg) (regsW : List Nat) (regsB : List Bool)
    (address nW nB : Nat) :
    (dump_word_rows dcfg regsW address nW).length = nW ∧
    (dump_bool_rows regsB address nB).length = nB ∧
    (∀ i, regsB.length ≤ i → i < nB →
      ((dump_bool_rows regsB address nB)[i]?).map BoolRow.bool_as_str = some naStr) ∧
    (∀ i, regsW.length ≤ i → i < nW →
      ((dump_word_rows dcfg regsW address nW)[i]?).map WordRow.raw_as_str = some naStr ∧
      ((dump_word_rows dcfg regsW address nW)[i]?).map WordRow.colA = some naStr ∧
      ((dump_word_rows dcfg regsW address nW)[i]?).map WordRow.colB = some naStr ∧
      (dcfg.dump_32b = true →
        ((dump_word_rows dcfg regsW address nW)[i]?).map WordRow.colC = some naStr) ∧
      (dcfg.dump_32b = false →
        ((dump_word_rows dcfg regsW address nW)[i]?).map WordRow.colC =
          some "None".data)) := by
  refine ⟨by simp [dump_word_rows], by simp [dump_bool_rows], ?_, ?_⟩
  · intro i hm hn
    have hget : (dump_bool_rows regsB address nB)[i]? = some (bool_row regsB address i) := by
      simp [dump_bool_rows, hn]
    have hnone : regsB[i]? = none := by
      simp [List.getElem?_eq_none_iff]
      omega
    simp [hget, bool_row, hnone]
  · intro i hm hn
    have hget : (dump_word_rows dcfg regsW address nW)[i]? =
        some (word_row dcfg regsW address i) := by
      simp [dump_word_rows, hn]
    have hnone : regsW[i]? = none := by
      simp [List.getElem?_eq_none_iff]
      omega
    have hnone1 : regsW[i + 1]? = none := by
      simp [List.getElem?_eq_none_iff]
      omega
    refine ⟨?_, ?_, ?_, ?_, ?_⟩
    · simp [hget, word_row, cells16, cells32, hnone, hnone1]
    · simp [hget, word_row, cells16, cells32, hnone, hnone1]
    · simp [hget, word_row, cells16, cells32, hnone, hnone1]
    · intro h32
      simp [hget, word_row, cells16, cells32, hnone, hnone1, h32]
    · intro h32
      simp [hget, word_row, cells16, cells32, hnone, hnone1, h32]

theorem C2_fixed_row_count_witness :
    (dump_word_rows ⟨false, false, false, false⟩ [1, 2, 3] 0 5).length = 5 ∧
    ((dump_bool_rows [true] 0 2)[1]?).map BoolRow.bool_as_str = some naStr ∧
    ((dump_word_rows ⟨false, false, false, false⟩ [1, 2, 3] 0 5)[3]?).map
      WordRow.raw_as_str = some naStr ∧
    ((dump_word_rows ⟨false, false, false, false⟩ [1, 2, 3] 0 5)[3]?).map
      WordRow.colA = some naStr ∧
    ((dump_word_rows ⟨false, false, false, false⟩ [1, 2, 3] 0 5)[3]?).map
      WordRow.colB = some naStr := by
  have h := C2_fixed_row_count ⟨false, false, false, false⟩ [1, 2, 3] [true] 0 5 2
  have hw := h.2.2.2 3 (by decide) (by decide)
  exact ⟨h.1, h.2.2.1 1 (by decide) (by decide), hw.1, hw.2.1, hw.2.2.1⟩

/-- C6: when the transport result is empty or falsy and debug mode is
off, `_dump_results` prints exactly one line: the transport's last-error
description, with the protocol exception text appended in parentheses
exactly when the failure was a Modbus exception response; with debug
mode on it prints nothing.  This holds on the word path and on the
boolean path alike. -/
theorem C6_empty_result_error_line (st : MbState) (dcfg : DisplayCfg)
    (retW : Option (List Nat)) (retB : Option (List Bool)) (address number : Nat)
    (hW : isTruthy retW = false) (hB : isTruthy retB = false) :
    (st.debug = false →
      dump_results_words st dcfg retW address number = [errLine st] ∧
      dump_results_bool st retB address number = [errLine st] ∧
      st.last_error_as_txt <+: errLine st ∧
      (st.last_error = MB_EXCEPT_ERR →
        errLine st =
          st.last_error_as_txt ++ " (".data ++ st.last_except_as_txt ++ ")".data) ∧
      (st.last_error ≠ MB_EXCEPT_ERR → errLine st = st.last_error_as_txt)) ∧
    (st.debug = true →
      dump_results_words st dcfg retW address number = [] ∧
      dump_results_bool st retB address number = []) := by
  constructor
  · intro hd
    refine ⟨?_, ?_, ⟨_, rfl⟩, ?_, ?_⟩
    · simp [dump_results_words, hW, hd]
    · simp [dump_results_bool, hB, hd]
    · intro he
      simp [errLine, he, List.append_assoc]
    · intro he
      simp [errLine, he]
  · intro hd
    exact ⟨by simp [dump_results_words, hW, hd], by simp [dump_results_bool, hB, hd]⟩

theorem C6_empty_result_error_line_witness :
    dump_results_words ⟨false, 4, "last error".data, "except txt".data⟩
        ⟨false, false, false, false⟩ none 0 1 =
      [errLine ⟨false, 4, "last error".data, "except txt".data⟩] ∧
    errLine ⟨false, 4, "last error".data, "except txt".data⟩ =
      "last error (except txt)".data ∧
    dump_results_bool ⟨true, 4, "last error".data, "except txt".data⟩ none 0 1 = [] := by
  have h1 := C6_empty_result_error_line ⟨false, 4, "last error".data, "except txt".data⟩
    ⟨false, false, false, false⟩ none none 0 1 rfl rfl
  have h2 := C6_empty_result_error_line ⟨true, 4, "last error".data, "except txt".data⟩
    ⟨false, false, false, false⟩ none none 0 1 rfl rfl
  exact ⟨(h1.1 rfl).1, by decide, (h2.2 rfl).2⟩

/-- C9: for every argument string, each embedded command handler
returns with the stop flag false (so neither the REPL loop nor a
one-shot sequence is terminated), and when its argument parsing fails
the handler's entire output is the single error-message line. -/
theorem C9_handler_boundary (st : MbState) (dcfg : DisplayCfg)
    (retB : Option (List Bool)) (retW : Option (List Nat)) (wok : Bool) (cur : Int)
    (arg : List Char) :
    (do_read_coils st retB arg).stop = false ∧
    (do_read_discrete_inputs st retB arg).stop = false ∧
    (do_read_holding_registers st dcfg retW arg).stop = false ∧
    (do_read_input_registers st dcfg retW arg).stop = false ∧
    (do_write_single_coil dcfg wok arg).stop = false ∧
    (do_write_single_register dcfg wok arg).stop = false ∧
    (do_port cur arg).stop = false ∧
    (∀ e, parseReadArgs 2000 arg = .error e →
      (do_read_coils st retB arg).lines = [e] ∧
      (do_read_discrete_inputs st retB arg).lines = [e]) ∧
    (∀ e, parseReadArgs 125 arg = .error e →
      (do_read_holding_registers st dcfg retW arg).lines = [e] ∧
      (do_read_input_registers st dcfg retW arg).lines = [e]) ∧
    (∀ e, parseWriteArgs 1 arg = .error e →
      (do_write_single_coil dcfg wok arg).lines = [e]) ∧
    (∀ e, parseWriteArgs 0xffff arg = .error e →
      (do_write_single_register dcfg wok arg).lines = [e]) ∧
    (∀ e, parseOneOpt "value".data (valid_int 1 0xffff) cur (preprocess_args arg) =
        .error e →
      (do_port cur arg).lines = [e] ∧ (do_port cur arg).value = cur) := by
  refine ⟨?_, ?_, ?_, ?_, ?_, ?_, ?_, ?_, ?_, ?_, ?_, ?_⟩
  · rcases h : parseReadArgs 2000 arg with e | ⟨ad, num⟩ <;> simp [do_read_coils, h]
  · rcases h : parseReadArgs 2000 arg with e | ⟨ad, num⟩ <;>
      simp [do_read_discrete_inputs, h]
  · rcases h : parseReadArgs 125 arg with e | ⟨ad, num⟩ <;>
      simp [do_read_holding_registers, h]
  · rcases h : parseReadArgs 125 arg with e | ⟨ad, num⟩ <;>
      simp [do_read_input_registers, h]
  · rcases h : parseWriteArgs 1 arg with e | ⟨ad, v⟩ <;> simp [do_write_single_coil, h]
  · rcases h : parseWriteArgs 0xffff arg with e | ⟨ad, v⟩ <;>
      simp [do_write_single_register, h]
  · rcases h : parseOneOpt "value".data (valid_int 1 0xffff) cur (preprocess_args arg)
      with e | v <;> simp [do_port, h]
  · intro e he
    exact ⟨by simp [do_read_coils, he], by simp [do_read_discrete_inputs, he]⟩
  · intro e he
    exact ⟨by simp [do_read_holding_registers, he], by simp [do_read_input_registers, he]⟩
  · intro e he
    simp [do_write_single_coil, he]
  · intro e he
    simp [do_write_single_register, he]
  · intro e he
    exact ⟨by simp [do_port, he], by simp [do_port, he]⟩

theorem C9_handler_boundary_witness :
    (do_read_coils ⟨false, 0, [], []⟩ none "1 2 3".data).stop = false ∧
    (do_read_coils ⟨false, 0, [], []⟩ none "1 2 3".data).lines =
      ["unrecognized arguments: 3".data] ∧
    (do_write_single_coil ⟨false, false, false, false⟩ true "abc 1".data).lines =
      ["argument address: not an int".data] := by
  have h1 := C9_handler_boundary ⟨false, 0, [], []⟩ ⟨false, false, false, false⟩
    none none true 502 "1 2 3".data
  have h2 := C9_handler_boundary ⟨false, 0, [], []⟩ ⟨false, false, false, false⟩
    none none true 502 "abc 1".data
  refine ⟨h1.1, ?_, ?_⟩
  · exact (h1.2.2.2.2.2.2.2.1 "unrecognized arguments: 3".data (by rfl)).1
  · exact h2.2.2.2.2.2.2.2.2.2.1 "argument address: not an int".data (by rfl)

end MbtCli
